import Mathlib

/-!
Verification of the WDR extractor (src/youtube_dl/extractor/wdr.py).

The development shallowly embeds the three extractor classes of the file
(`WDRBaseIE`, `WDRIE`, `WDRMobileIE`).  Host-framework collaborators that
live outside this repository snapshot (the fetch/probe/expansion helpers of
`youtube_dl/extractor/common.py` and the string utilities of
`youtube_dl/utils.py`) are either taken as explicit parameters of an
environment record or modelled from the specification, as indicated by the
doc comment of each such definition.
-/

namespace WDR

/-! ## Character-list utilities (used by the URL/query models) -/

/-- Consume the literal character sequence `lit` from the front of `l`;
return the remainder on success. -/
def dropLit : List Char → List Char → Option (List Char)
  | [], l => some l
  | _ :: _, [] => none
  | p :: ps, x :: xs => if x = p then dropLit ps xs else none

/-- Split at the first occurrence of `c`: returns the characters before it
and, when `c` occurs, the characters after it. -/
def splitFirst (c : Char) : List Char → List Char × Option (List Char)
  | [] => ([], none)
  | x :: xs =>
    if x = c then ([], some xs)
    else
      let r := splitFirst c xs
      (x :: r.1, r.2)

/-- Split on every occurrence of `c` (like Python `str.split`). -/
def splitAll (c : Char) : List Char → List (List Char)
  | [] => [[]]
  | x :: xs =>
    let r := splitAll c xs
    if x = c then [] :: r
    else
      match r with
      | h :: t => (x :: h) :: t
      | [] => [[x]]

/-- First value bound to key `k` in an association list of query pairs. -/
def lookupQ (k : String) : List (String × String) → Option String
  | [] => none
  | kv :: rest => if kv.1 = k then some kv.2 else lookupQ k rest

/-- One `key=value` piece of a query string; a piece without `=` becomes a
key with an empty value. -/
def parsePair (piece : List Char) : String × String :=
  let r := splitFirst '=' piece
  match r.2 with
  | some v => (r.1.asString, v.asString)
  | none => (piece.asString, "")

/-- Decode a raw query string into its key/value pairs; empty pieces
(as in `a&&b`) are skipped. -/
def parseQuery (q : List Char) : List (String × String) :=
  (splitAll '&' q).filterMap (fun piece => if piece.isEmpty then none else some (parsePair piece))

/-- Encode one key/value pair as `key=value`. -/
def encodePair (kv : String × String) : List Char := kv.1.toList ++ '=' :: kv.2.toList

/-- Encode query pairs, separated by `&`. -/
def encodeQuery : List (String × String) → List Char
  | [] => []
  | [kv] => encodePair kv
  | kv :: kv2 :: rest => encodePair kv ++ '&' :: encodeQuery (kv2 :: rest)

/-- The rightmost run of characters after a `.`, if any dot occurs. -/
def lastAfterDot : List Char → Option (List Char)
  | [] => none
  | c :: cs =>
    match lastAfterDot cs with
    | some r => some r
    | none => if c = '.' then some cs else none

/-! ## Spec-modelled `youtube_dl/utils.py` helpers -/

/-- Modelled from the spec: `determine_ext` (youtube_dl/utils.py, not in
src/).  Per §4.4 the classifier dispatches on the file extension inferred
from the raw media URL; we take the token after the last dot of the
query-stripped URL, and yield the marker `unknown_video` when there is no
dot or the token is not a plain alphanumeric word (the "unknown/ambiguous
extension" case of the spec). -/
def determine_ext (url : String) : String :=
  let path := (splitFirst '?' url.toList).1
  match lastAfterDot path with
  | some g => if !g.isEmpty && g.all Char.isAlphanum then g.asString else "unknown_video"
  | none => "unknown_video"

/-- Modelled from the spec: `unified_strdate` (youtube_dl/utils.py, not in
src/).  Per §6 upload dates are normalised to an 8-digit `YYYYMMDD` form;
an absent or unusable input yields no date (§4.3: "absence is valid").  We
keep the first eight digit characters of the input. -/
def unified_strdate : Option String → Option String
  | none => none
  | some s =>
    let ds := s.toList.filter Char.isDigit
    if ds.length < 8 then none else some (ds.take 8).asString

/-- Modelled from the spec: `update_url_query` (youtube_dl/utils.py, not in
src/).  Per §4.4 the two fixed `.f4m` parameters are appended to the URL
"regardless of any pre-existing query string": pre-existing pairs with other
keys are kept and the given pairs take effect for their keys. -/
def update_url_query (url : String) (query : List (String × String)) : String :=
  if query.isEmpty then url
  else
    let s := splitFirst '?' url.toList
    let oldPairs :=
      match s.2 with
      | some q => parseQuery q
      | none => []
    let merged := oldPairs.filter (fun kv => (lookupQ kv.1 query).isNone) ++ query
    (s.1 ++ '?' :: encodeQuery merged).asString

/-- The raw query string of a URL (the characters after the first `?`). -/
def urlQueryString (url : String) : List Char :=
  match (splitFirst '?' url.toList).2 with
  | some q => q
  | none => []

/-- The value a URL's query string carries for key `k`, if any. -/
def urlQueryLookup (url : String) (k : String) : Option String :=
  lookupQ k (parseQuery (urlQueryString url))

/-! ## Data model (wdr.py and its output shapes) -/

/-- Error kinds raised by the extractor or its collaborators.
`extractorError` is `youtube_dl.utils.ExtractorError` with its message and
`expected` flag; `keyError` is a Python `KeyError` on a missing dict key;
`typeError` a Python `TypeError`; `fetchError`/`malformedMetadata` are the
transport/decode failures the fetch collaborators signal. -/
inductive Err where
  | extractorError (msg : String) (expected : Bool)
  | fetchError (url : String)
  | malformedMetadata
  | keyError (key : String)
  | typeError
deriving DecidableEq, Repr

/-- One format candidate as built by wdr.py lines 74-82: a dict with the
raw `url` and, only in the probe case, an `ext` key.  Candidates returned
by the manifest-expansion collaborators use the same shape. -/
structure Format where
  url : String
  ext : Option String := none
deriving DecidableEq, Repr

/-- One subtitle track (`url`/`ext` dict, wdr.py lines 89-92). -/
structure SubTrack where
  url : String
  ext : String
deriving DecidableEq, Repr

/-- The `trackerData` section of the manifest (wdr.py line 46); every field
models presence of the corresponding JSON key. -/
structure TrackerData where
  trackerClipId : Option String := none
  trackerClipTitle : Option String := none
  trackerClipSubcategory : Option String := none
  trackerClipAirTime : Option String := none
deriving DecidableEq, Repr

/-- The `mediaResource` section of the manifest (wdr.py line 47):
`entries` are the dict items whose values are role-to-URL dicts (the code
only ever looks inside those with key `dflt`/`alt`, wdr.py line 53);
`captionURL` is the optional top-level caption entry (line 87). -/
structure MediaResource where
  entries : List (String × List (String × String)) := []
  captionURL : Option String := none
deriving DecidableEq, Repr

/-- The decoded secondary JSON manifest; both top-level keys may be absent
(indexing then raises `KeyError`, wdr.py lines 46-47). -/
structure Manifest where
  trackerData : Option TrackerData := none
  mediaResource : Option MediaResource := none
deriving DecidableEq, Repr

/-- The `mediaObj` member of a parsed reference fragment (wdr.py line 36). -/
structure MediaObj where
  url : Option String := none
deriving DecidableEq, Repr

/-- A parsed `data-extension` JSON fragment (wdr.py lines 34-36). -/
structure MediaLinkObj where
  mediaObj : Option MediaObj := none
deriving DecidableEq, Repr

/-- The info dict assembled by wdr.py lines 96-104 and post-processed at
lines 246-259.  For `upload_date`, `description` and `is_live` the outer
`Option` models whether the key is present in the Python dict at all -- the
distinction `'upload_date' not in info_dict` (line 253) tests. -/
structure InfoDict where
  id : Option String
  display_id : Option String
  title : String
  alt_title : Option String
  formats : List Format
  subtitles : List (String × List SubTrack)
  upload_date : Option (Option String) := none
  description : Option (Option String) := none
  is_live : Option Bool := none
deriving DecidableEq, Repr

/-- Modelled from the spec: a lazy cross-reference entry as produced by the
framework's `url_result` helper (common.py, not in src/): the target URL
plus the extractor name it is routed to. -/
structure UrlRef where
  url : String
  ie : String
deriving DecidableEq, Repr

/-- The shapes `WDRIE._real_extract` can return: a single info dict
(line 261), a flat playlist of resolved items (line 240), or a playlist of
lazy page references (line 229). -/
inductive ExtractResult where
  | single (info : InfoDict)
  | playlist (entries : List InfoDict) (id : Option String)
  | urlPlaylist (entries : List UrlRef) (id : Option String)
deriving DecidableEq, Repr

/-! ## URL pattern matchers

Embeddings of the `_VALID_URL` regular expressions, matched with Python
`re.match` semantics (anchored at the start, the tail of the string is
unconstrained).  Greedy sub-patterns whose character class excludes the
following delimiter are implemented by maximal munch, which is the unique
successful assignment; the two genuinely backtracking points (the optional
`mediathek/` segment and the `{1,4}` repetition) try the greedy branch
first and fall back, as the regex engine does. -/

/-- Match `https?://`, returning the consumed characters and the rest. -/
def matchScheme (l : List Char) : Option (List Char × List Char) :=
  match dropLit "https://".toList l with
  | some r => some ("https://".toList, r)
  | none =>
    match dropLit "http://".toList l with
    | some r => some ("http://".toList, r)
    | none => none

/-- Match `[^/]+/`: a nonempty run of non-slash characters followed by a
slash; returns the run and the characters after the slash. -/
def segSlash (l : List Char) : Option (List Char × List Char) :=
  let seg := l.takeWhile (fun c => c ≠ '/')
  let rest := l.dropWhile (fun c => c ≠ '/')
  if seg.isEmpty then none
  else
    match rest with
    | '/' :: xs => some (seg, xs)
    | _ => none

/-- Greedy match of `(body)(pat)` at the start of the list, where every
body character satisfies `allowed` and the body is nonempty: returns the
longest such body that is immediately followed by the literal `pat`
(characters after `pat` are unconstrained). -/
def greedyBodyP (allowed : Char → Bool) (pat : List Char) : List Char → Option (List Char)
  | [] => none
  | c :: cs =>
    if allowed c then
      match greedyBodyP allowed pat cs with
      | some body => some (c :: body)
      | none =>
        match dropLit pat cs with
        | some _ => some [c]
        | none => none
    else none

/-- Match `(?:www\d\.)?wdr\d?\.de` after the scheme (from
`WDRIE._VALID_URL`, wdr.py line 110): skipping a present `www\d.` cannot
make `wdr` match, and a digit after `wdr` cannot start `.de`, so both
options are decided deterministically. -/
def matchHostCore (l : List Char) : Option (List Char × List Char) :=
  let www :=
    match l with
    | 'w' :: 'w' :: 'w' :: d :: '.' :: rest =>
      if d.isDigit then some (['w', 'w', 'w', d, '.'], rest) else none
    | _ => none
  let step := fun (consumed : List Char) (r : List Char) =>
    match r with
    | 'w' :: 'd' :: 'r' :: r2 =>
      let dg :=
        match r2 with
        | d :: r3 => if d.isDigit then some ([d], r3) else none
        | [] => none
      let dgr := match dg with | some x => x | none => ([], r2)
      match dropLit ".de".toList dgr.2 with
      | some r4 => some (consumed ++ ['w', 'd', 'r'] ++ dgr.1 ++ ".de".toList, r4)
      | none => none
    | _ => none
  match www with
  | some (c, rest) => step c rest
  | none => step [] l

/-- Match `[^/]+/(?P<type>[^/]+)/(?P<display_id>.+)\.html` (the tail of
`WDRIE._PAGE_REGEX`, wdr.py line 109); `.` does not match a newline. -/
def matchTypeDisplay (l : List Char) : Option (List Char × List Char) :=
  match segSlash l with
  | some (_, r1) =>
    match segSlash r1 with
    | some (ty, r2) =>
      match greedyBodyP (fun c => c ≠ '\n') ".html".toList r2 with
      | some body => some (ty, body)
      | none => none
    | none => none
  | none => none

/-- Match `/(?:mediathek/)?` followed by `matchTypeDisplay`, trying the
branch that consumes `mediathek/` first, as the greedy option does. -/
def matchPageTail (l : List Char) : Option (List Char × List Char) :=
  match l with
  | '/' :: rest =>
    (match dropLit "mediathek/".toList rest with
     | some rest2 =>
       match matchTypeDisplay rest2 with
       | some x => some x
       | none => matchTypeDisplay rest
     | none => matchTypeDisplay rest)
  | _ => none

/-- Match the desktop alternative of `WDRIE._VALID_URL` (wdr.py
lines 109-110): on success returns the `page_url`, `type` and `display_id`
capture groups. -/
def matchDesktopWDR (l : List Char) : Option (String × String × String) :=
  match matchScheme l with
  | some (sch, r1) =>
    match matchHostCore r1 with
    | some (host, r2) =>
      match matchPageTail r2 with
      | some (ty, did) => some ((sch ++ host).asString, ty.asString, did.asString)
      | none => none
    | none => none
  | none => none

/-- Consume exactly `n` repetitions of `[^/]+/`, returning the consumed
characters (slashes included) and the rest. -/
def matchSegs : Nat → List Char → Option (List Char × List Char)
  | 0, l => some ([], l)
  | n + 1, l =>
    match segSlash l with
    | some (seg, rest) =>
      match matchSegs n rest with
      | some (more, rest2) => some (seg ++ '/' :: more, rest2)
      | none => none
    | none => none

/-- Match `(?:[^/]+/){1,4}[^/?#]+\.php5` with the greedy repetition count
tried from 4 down to 1; returns the `display_id_maus` capture group. -/
def matchMausPath (l : List Char) : Option String :=
  let tryN := fun (n : Nat) =>
    match matchSegs n l with
    | some (segs, rest) =>
      match greedyBodyP (fun c => c ≠ '/' && c ≠ '?' && c ≠ '#') ".php5".toList rest with
      | some body => some (segs ++ body).asString
      | none => none
    | none => none
  match tryN 4 with
  | some x => some x
  | none =>
    match tryN 3 with
    | some x => some x
    | none =>
      match tryN 2 with
      | some x => some x
      | none => tryN 1

/-- Match `https?://(?:www\.)wdrmaus.de/` then the maus path
(`WDRIE._WDR_MAUS_REGEX`, wdr.py line 108).  The `www.` group carries no
`?` in the source, so it is mandatory; the dot of `wdrmaus.de` is an
unescaped `.` and matches any non-newline character. -/
def matchMaus (l : List Char) : Option String :=
  match matchScheme l with
  | some (_, r1) =>
    match dropLit "www.".toList r1 with
    | some r2 =>
      match dropLit "wdrmaus".toList r2 with
      | some (c :: r3) =>
        if c ≠ '\n' then
          match dropLit "de/".toList r3 with
          | some r4 => matchMausPath r4
          | none => none
        else none
      | _ => none
    | none => none
  | none => none

/-- The result of matching `WDRIE._VALID_URL`: one `Option` per named
capture group (a group of the untaken alternative does not participate in
the match, so Python's `mobj.group` yields `None` for it). -/
structure WDRMatch where
  page_url : Option String
  type_ : Option String
  display_id : Option String
  display_id_maus : Option String
deriving DecidableEq, Repr

/-- `re.match(WDRIE._VALID_URL, url)` (wdr.py lines 108-110, 211): the
desktop alternative is tried first, then the wdrmaus alternative. -/
def wdrValidUrlMatch (url : String) : Option WDRMatch :=
  match matchDesktopWDR url.toList with
  | some (pu, ty, did) => some ⟨some pu, some ty, some did, none⟩
  | none =>
    match matchMaus url.toList with
    | some dm => some ⟨none, none, none, some dm⟩
    | none => none

/-- Match `[0-9]+` followed by the literal character `c`: the digit run is
greedy and, as `c` is never a digit at its uses, maximal munch is the only
successful assignment. -/
def digitRunThen (c : Char) (l : List Char) : Option (List Char × List Char) :=
  match l.takeWhile Char.isDigit with
  | [] => none
  | d :: ds =>
    match l.dropWhile Char.isDigit with
    | x :: xs => if x = c then some (d :: ds, xs) else none
    | [] => none

/-- Match a final `[0-9]+` (the tail after it is unconstrained). -/
def digitRunEnd (l : List Char) : Option (List Char) :=
  match l.takeWhile Char.isDigit with
  | [] => none
  | d :: ds => some (d :: ds)

/-- Match `/fsk(?P<age_limit>[0-9]+)/[0-9]+/[0-9]+/(?P<id>[0-9]+)_(?P<title>[0-9]+)`
at the current position (`WDRMobileIE._VALID_URL`, wdr.py lines 265-269);
returns the `age_limit`, `id` and `title` capture groups. -/
def matchMobileTail (l : List Char) : Option (String × String × String) :=
  match dropLit "/fsk".toList l with
  | none => none
  | some r1 =>
    match digitRunThen '/' r1 with
    | none => none
    | some (age, r2) =>
      match digitRunThen '/' r2 with
      | none => none
      | some (_, r3) =>
        match digitRunThen '/' r3 with
        | none => none
        | some (_, r4) =>
          match digitRunThen '_' r4 with
          | none => none
          | some (idd, r5) =>
            match digitRunEnd r5 with
            | none => none
            | some ttl => some (age.asString, idd.asString, ttl.asString)

/-- The lazy `.*?` scan before `/fsk…`: try the tail at the current
position first, then advance over one non-newline character. -/
def scanMobile : List Char → Option (String × String × String)
  | [] => none
  | c :: cs =>
    match matchMobileTail (c :: cs) with
    | some g => some g
    | none => if c = '\n' then none else scanMobile cs

/-- `re.match(WDRMobileIE._VALID_URL, url)` (wdr.py lines 265-269, 283). -/
def wdrMobileMatch (url : String) : Option (String × String × String) :=
  match matchScheme url.toList with
  | none => none
  | some (_, r1) =>
    match dropLit "mobile-ondemand.wdr.de/".toList r1 with
    | none => none
    | some r2 => scanMobile r2

/-! ## Host-framework collaborators -/

/-- Modelled from the spec: the host-framework capabilities the extractor
consumes (§1, §6); the implementations live in `common.py`/`utils.py` and
the `re` library, outside this repository snapshot.
* `downloadWebpage` — `_download_webpage`: fetch page text, transport
  failure propagates (§7 `FetchError`).
* `findMarkers` — the `re.findall` of wdr.py line 25: the ordered
  `data-extension` capture values of the reference-marker pattern (§4.1).
* `parseMediaLink` — `_parse_json` with the `js_to_json` lenient transform
  (§4.2): a valid value or a `MalformedMetadata` failure.
* `fetchManifest` — `_download_json` with the `strip_jsonp` transform
  (§4.3): the decoded manifest or a transport/decode failure.
* `extractM3u8`/`extractF4m`/`extractSmil` — the manifest-expansion
  helpers (`_extract_m3u8_formats` etc.): `some` candidates, or `none` on
  expansion failure.  Per the framework contract the wdr.py call site
  decides fatality: a call without `fatal=False` raises on failure, one
  with `fatal=False` contributes zero candidates (§4.4, §7).  The fixed
  extra arguments of the calls (ext/protocol/format-id labels) are the
  collaborator's configuration and are not modelled.
* `probeExt` — `_request_webpage` + `urlhandle_detect_ext` (§4.4 probe):
  the detected container extension; transport failure propagates.
* `sortFormats` — the shared quality-ranking utility (§4.3 step 3); the
  empty-candidate failure it raises is modelled at the call site.
* `searchMeta` — `_html_search_meta name webpage` (§4.5): the value of a
  page meta tag, if present.
* `liveTitle` — `_live_title`: the timestamped live label (§4.5).
* `findPageAnchors` — the `re.findall` of wdr.py lines 223-225: the first
  capture group (the page-shaped href) of each matching anchor. -/
structure Env where
  downloadWebpage : String → Except Err String
  findMarkers : String → List String
  parseMediaLink : String → Except Err MediaLinkObj
  fetchManifest : String → Except Err Manifest
  extractM3u8 : String → Option (List Format)
  extractF4m : String → Option (List Format)
  extractSmil : String → Option (List Format)
  probeExt : String → Except Err String
  sortFormats : List Format → List Format
  searchMeta : String → String → Option String
  liveTitle : String → String
  findPageAnchors : String → List String

/-- Sequential effectful map over a list (the order a Python list
comprehension or `for` loop evaluates in): the first failure aborts. -/
def mapME {α β : Type} (f : α → Except Err β) : List α → Except Err (List β)
  | [] => .ok []
  | a :: as =>
    match f a with
    | .error e => .error e
    | .ok b =>
      match mapME f as with
      | .error e => .error e
      | .ok bs => .ok (b :: bs)

/-! ## WDRBaseIE -/

/-- The URL passed to the `.f4m` expansion helper (wdr.py lines 66-67). -/
def f4mFetchUrl (medium_url : String) : String :=
  update_url_query medium_url [("hdcore", "3.2.0"), ("plugin", "aasp-3.2.0.77.18")]

/-- Format classification of one raw media URL: the dispatch on the
inferred extension, wdr.py lines 60-82.  The `.m3u8` expansion call at
line 62 passes no `fatal=False`, so its failure raises; the `.f4m` and
`.smil` calls (lines 68-69, 71-72) pass `fatal=False`, so their failures
yield zero candidates; the probe request of the `unknown_video` case
(lines 78-80) is fatal. -/
def classifyFormats (env : Env) (medium_url : String) : Except Err (List Format) :=
  let ext := determine_ext medium_url
  if ext = "m3u8" then
    match env.extractM3u8 medium_url with
    | some fs => .ok fs
    | none => .error (.fetchError medium_url)
  else if ext = "f4m" then
    .ok ((env.extractF4m (f4mFetchUrl medium_url)).getD [])
  else if ext = "smil" then
    .ok ((env.extractSmil medium_url).getD [])
  else if ext = "unknown_video" then
    match env.probeExt medium_url with
    | .ok e => .ok [{ url := medium_url, ext := some e }]
    | .error er => .error er
  else
    .ok [{ url := medium_url }]

/-- The inner loop over one delivery variant's role entries (wdr.py
lines 56-82): only `videoURL`/`audioURL` tags are classified, in order. -/
def collectRoleFormats (env : Env) : List (String × String) → Except Err (List Format)
  | [] => .ok []
  | (tag_name, medium_url) :: rest =>
    if tag_name = "videoURL" ∨ tag_name = "audioURL" then
      match classifyFormats env medium_url with
      | .error e => .error e
      | .ok fs =>
        match collectRoleFormats env rest with
        | .error e => .error e
        | .ok more => .ok (fs ++ more)
    else collectRoleFormats env rest

/-- The outer loop over the `mediaResource` entries (wdr.py lines 52-82):
only the `dflt`/`alt` delivery variants are considered, in order. -/
def collectFormats (env : Env) : List (String × List (String × String)) → Except Err (List Format)
  | [] => .ok []
  | (kind, media_resource) :: rest =>
    if kind = "dflt" ∨ kind = "alt" then
      match collectRoleFormats env media_resource with
      | .error e => .error e
      | .ok fs =>
        match collectFormats env rest with
        | .error e => .error e
        | .ok more => .ok (fs ++ more)
    else collectFormats env rest

/-- `WDRBaseIE._extract_wdr_video_from_jsonp_url` (wdr.py lines 40-104):
fetch and decode the manifest, collect and rank format candidates, build
the subtitle map from `captionURL` (a truthiness test, line 88), and
assemble the info dict.  `_sort_formats` (common.py, not in src/) raises
when no candidate survived — the spec's §3 invariant "at least one
variant/role pair must resolve to a usable format, or extraction fails". -/
def extract_wdr_video_from_jsonp_url (env : Env) (jsonp_url : String)
    (display_id : Option String) : Except Err InfoDict :=
  match env.fetchManifest jsonp_url with
  | .error e => .error e
  | .ok metadata =>
    match metadata.trackerData with
    | none => .error (.keyError "trackerData")
    | some metadata_tracker_data =>
      match metadata.mediaResource with
      | none => .error (.keyError "mediaResource")
      | some metadata_media_resource =>
        match collectFormats env metadata_media_resource.entries with
        | .error e => .error e
        | .ok formats0 =>
          if formats0.isEmpty then .error (.extractorError "No video formats found" false)
          else
            let formats := env.sortFormats formats0
            let subtitles : List (String × List SubTrack) :=
              match metadata_media_resource.captionURL with
              | some caption_url =>
                if caption_url = "" then [] else [("de", [⟨caption_url, "ttml"⟩])]
              | none => []
            match metadata_tracker_data.trackerClipTitle with
            | none => .error (.keyError "trackerClipTitle")
            | some title =>
              .ok {
                id :=
                  match metadata_tracker_data.trackerClipId with
                  | some i => some i
                  | none => display_id,
                display_id := display_id,
                title := title,
                alt_title := metadata_tracker_data.trackerClipSubcategory,
                formats := formats,
                subtitles := subtitles,
                upload_date := some (unified_strdate metadata_tracker_data.trackerClipAirTime) }

/-- The `['mediaObj']['url']` projection applied to one parsed reference
fragment (wdr.py lines 34-36); a missing key raises `KeyError`. -/
def mediaLinkUrl (env : Env) (json : String) : Except Err String :=
  match env.parseMediaLink json with
  | .error e => .error e
  | .ok media_link_obj =>
    match media_link_obj.mediaObj with
    | none => .error (.keyError "mediaObj")
    | some mo =>
      match mo.url with
      | none => .error (.keyError "url")
      | some u => .ok u

/-- `WDRBaseIE._extract_wdr_jsonp_urls` (wdr.py lines 19-38): when the
marker scan finds nothing the function returns `None` (bare `return`,
line 30); otherwise each fragment is parsed and projected in order.  The
`display_id` argument is only used by the source for log messages. -/
def extract_wdr_jsonp_urls (env : Env) (webpage : String)
    (_display_id : Option String) : Except Err (Option (List String)) :=
  let json_metadata := env.findMarkers webpage
  if json_metadata.isEmpty then .ok none
  else
    match mapME (mediaLinkUrl env) json_metadata with
    | .error e => .error e
    | .ok urls => .ok (some urls)

/-! ## WDRIE -/

/-- The no-reference branch of `WDRIE._real_extract` (wdr.py lines
219-231): scan the page body for single-video anchors; each found href is
joined onto the `page_url` group (whose value is `None` when the wdrmaus
alternative matched, making the `+` a `TypeError`) and becomes a lazy
cross-reference; with no anchor at all the extraction fails with the
expected "No downloadable streams found" error. -/
def wdrNoJsonpBranch (env : Env) (page_url : Option String)
    (display_id : Option String) (webpage : String) : Except Err ExtractResult :=
  let hrefs := env.findPageAnchors webpage
  match
    mapME
      (fun href =>
        match page_url with
        | some pu => .ok (UrlRef.mk (pu ++ href) "WDR")
        | none => .error Err.typeError)
      hrefs
  with
  | .error e => .error e
  | .ok entries =>
    if entries.isEmpty then .error (.extractorError "No downloadable streams found" true)
    else .ok (.urlPlaylist entries display_id)

/-- The single-video tail of `WDRIE._real_extract` (wdr.py lines 244-261):
live post-processing replaces the title and sets the `upload_date` key to
`None`; otherwise the DC.Date fallback runs only when the dict carries no
`upload_date` key at all; finally the page description and the `is_live`
flag are overlaid. -/
def wdrSinglePostProcess (env : Env) (url_type : Option String)
    (webpage : String) (info_dict : InfoDict) : InfoDict :=
  let is_live : Bool := url_type = some "live"
  let info_dict :=
    if is_live then
      { info_dict with
        title := env.liveTitle info_dict.title,
        upload_date := some none }
    else if info_dict.upload_date = none then
      { info_dict with
        upload_date := some (unified_strdate (env.searchMeta "DC.Date" webpage)) }
    else info_dict
  { info_dict with
    description := some (env.searchMeta "Description" webpage),
    is_live := some is_live }

/-- `WDRIE._real_extract` (wdr.py lines 210-261).  The jsonp-url list is
falsy (`None` or empty) in the no-reference branch; more than one URL takes
the flat-playlist branch, which rebinds the display id to the
`display_id_maus` group and returns without post-processing; exactly one
URL is resolved and post-processed. -/
def WDRIE_realExtract (env : Env) (url : String) : Except Err ExtractResult :=
  match wdrValidUrlMatch url with
  | none => .error .typeError
  | some mobj =>
    let url_type := mobj.type_
    let page_url := mobj.page_url
    let display_id := mobj.display_id
    match env.downloadWebpage url with
    | .error e => .error e
    | .ok webpage =>
      match extract_wdr_jsonp_urls env webpage display_id with
      | .error e => .error e
      | .ok jsonp_urls =>
        match jsonp_urls with
        | none => wdrNoJsonpBranch env page_url display_id webpage
        | some [] => wdrNoJsonpBranch env page_url display_id webpage
        | some (jsonp_url :: rest) =>
          if rest.isEmpty then
            match extract_wdr_video_from_jsonp_url env jsonp_url display_id with
            | .error e => .error e
            | .ok info_dict => .ok (.single (wdrSinglePostProcess env url_type webpage info_dict))
          else
            let display_id := mobj.display_id_maus
            match
              mapME (fun ju => extract_wdr_video_from_jsonp_url env ju display_id)
                (jsonp_url :: rest)
            with
            | .error e => .error e
            | .ok entries => .ok (.playlist entries display_id)

/-! ## WDRMobileIE -/

/-- The info dict `WDRMobileIE._real_extract` returns (wdr.py
lines 282-292). -/
structure MobileInfo where
  id : String
  title : String
  age_limit : Nat
  url : String
  http_headers : List (String × String)
deriving DecidableEq, Repr

/-- Python `int()` on an all-digit capture group: the base-10 value of the
digit characters. -/
def digitsToNat (s : String) : Nat :=
  s.toList.foldl (fun n c => n * 10 + (c.toNat - Char.toNat '0')) 0

/-- `WDRMobileIE._real_extract` (wdr.py lines 282-292): a pure function of
the URL — the descriptor is assembled from the capture groups alone, with
no collaborator access at all.  `int(...)` on the all-digit `age_limit`
group is Python string-to-integer conversion. -/
def WDRMobileIE_realExtract (url : String) : Option MobileInfo :=
  match wdrMobileMatch url with
  | none => none
  | some (age_limit, id, title) =>
    some {
      id := id,
      title := title,
      age_limit := digitsToNat age_limit,
      url := url,
      http_headers := [("User-Agent", "mobile")] }

/-! ## Stateful classification (for the idempotence claim)

The format classifier of wdr.py lines 60-82 issues requests through the
expansion and probe collaborators; to state idempotence non-trivially the
collaborators are allowed an explicit state `σ` threaded through each
call, and "behaving deterministically" means the returned value does not
depend on that state. -/

/-- The expansion/probe collaborators of the classifier with explicit
state threading; the value components are as in `Env`. -/
structure MEnv (σ : Type) where
  extractM3u8 : String → σ → Option (List Format) × σ
  extractF4m : String → σ → Option (List Format) × σ
  extractSmil : String → σ → Option (List Format) × σ
  probeExt : String → σ → Except Err String × σ

/-- The collaborators' results do not depend on their state. -/
def MEnv.Deterministic {σ : Type} (env : MEnv σ) : Prop :=
  (∀ u s s', (env.extractM3u8 u s).1 = (env.extractM3u8 u s').1) ∧
  (∀ u s s', (env.extractF4m u s).1 = (env.extractF4m u s').1) ∧
  (∀ u s s', (env.extractSmil u s).1 = (env.extractSmil u s').1) ∧
  (∀ u s s', (env.probeExt u s).1 = (env.probeExt u s').1)

/-- Format classification (wdr.py lines 60-82) with collaborator state
threaded through the one request the taken branch issues; branch for
branch the same translation as `classifyFormats`. -/
def classifyFormatsM {σ : Type} (env : MEnv σ) (medium_url : String) (s : σ) :
    Except Err (List Format) × σ :=
  let ext := determine_ext medium_url
  if ext = "m3u8" then
    match env.extractM3u8 medium_url s with
    | (some fs, s') => (.ok fs, s')
    | (none, s') => (.error (.fetchError medium_url), s')
  else if ext = "f4m" then
    let r := env.extractF4m (f4mFetchUrl medium_url) s
    (.ok (r.1.getD []), r.2)
  else if ext = "smil" then
    let r := env.extractSmil medium_url s
    (.ok (r.1.getD []), r.2)
  else if ext = "unknown_video" then
    match env.probeExt medium_url s with
    | (.ok e, s') => (.ok [{ url := medium_url, ext := some e }], s')
    | (.error er, s') => (.error er, s')
  else
    (.ok [{ url := medium_url }], s)

/-- Stateless collaborators, seen as stateful ones. -/
def Env.lift (env : Env) (σ : Type) : MEnv σ where
  extractM3u8 := fun u s => (env.extractM3u8 u, s)
  extractF4m := fun u s => (env.extractF4m u, s)
  extractSmil := fun u s => (env.extractSmil u, s)
  probeExt := fun u s => (env.probeExt u, s)

/-! ## Lemmas: strings and query parsing -/

theorem toList_asString (l : List Char) : (List.asString l).toList = l := rfl

theorem asString_toList (s : String) : s.toList.asString = s := rfl

theorem splitFirst_not_mem {c : Char} {l : List Char} (h : c ∉ l) :
    splitFirst c l = (l, none) := by
  induction l with
  | nil => rfl
  | cons x xs ih =>
    simp only [List.mem_cons, not_or] at h
    have hx : ¬ x = c := fun hxc => h.1 hxc.symm
    simp only [splitFirst, if_neg hx, ih h.2]

theorem splitFirst_app {c : Char} {pre post : List Char} (h : c ∉ pre) :
    splitFirst c (pre ++ c :: post) = (pre, some post) := by
  induction pre with
  | nil => simp [splitFirst]
  | cons x xs ih =>
    simp only [List.mem_cons, not_or] at h
    have hx : ¬ x = c := fun hxc => h.1 hxc.symm
    simp only [List.cons_append, splitFirst, if_neg hx]
    rw [show xs.append (c :: post) = xs ++ c :: post from rfl, ih h.2]

theorem splitFirst_fst_not_mem (c : Char) (l : List Char) : c ∉ (splitFirst c l).1 := by
  induction l with
  | nil => simp [splitFirst]
  | cons x xs ih =>
    by_cases hx : x = c
    · simp [splitFirst, hx]
    · simp only [splitFirst, if_neg hx, List.mem_cons, not_or]
      exact ⟨fun hc => hx hc.symm, ih⟩

theorem splitFirst_fst_sub (c : Char) (l : List Char) :
    ∀ x ∈ (splitFirst c l).1, x ∈ l := by
  induction l with
  | nil => simp [splitFirst]
  | cons y ys ih =>
    by_cases hy : y = c
    · simp [splitFirst, hy]
    · simp only [splitFirst, if_neg hy, List.mem_cons]
      intro x hx
      rcases hx with hx | hx
      · exact Or.inl hx
      · exact Or.inr (ih x hx)

theorem splitFirst_snd_sub {c : Char} {l v : List Char} (h : (splitFirst c l).2 = some v) :
    ∀ x ∈ v, x ∈ l := by
  induction l generalizing v with
  | nil => simp [splitFirst] at h
  | cons y ys ih =>
    by_cases hy : y = c
    · simp only [splitFirst, if_pos hy] at h
      cases h
      intro x hx
      exact List.mem_cons_of_mem _ hx
    · simp only [splitFirst, if_neg hy] at h
      intro x hx
      exact List.mem_cons_of_mem _ (ih h x hx)

theorem splitAll_ne_nil (c : Char) (l : List Char) : splitAll c l ≠ [] := by
  cases l with
  | nil => simp [splitAll]
  | cons x xs =>
    simp only [splitAll]
    by_cases hx : x = c
    · simp [hx]
    · simp only [if_neg hx]
      cases splitAll c xs <;> simp

theorem not_mem_of_mem_splitAll {c : Char} {l p : List Char} (hp : p ∈ splitAll c l) :
    c ∉ p := by
  induction l generalizing p with
  | nil =>
    simp only [splitAll, List.mem_singleton] at hp
    simp [hp]
  | cons x xs ih =>
    by_cases hx : x = c
    · simp only [splitAll, if_pos hx, List.mem_cons] at hp
      rcases hp with hp | hp
      · simp [hp]
      · exact ih hp
    · cases hr : splitAll c xs with
      | nil => exact absurd hr (splitAll_ne_nil c xs)
      | cons hh tt =>
        simp only [splitAll, if_neg hx, hr, List.mem_cons] at hp
        rcases hp with hp | hp
        · subst hp
          have hch : c ∉ hh := ih (hr ▸ List.mem_cons_self hh tt)
          simp only [List.mem_cons, not_or]
          exact ⟨fun hcx => hx hcx.symm, hch⟩
        · exact ih (hr ▸ List.mem_cons_of_mem hh hp)

theorem splitAll_app {c : Char} {p r : List Char} (h : c ∉ p) :
    splitAll c (p ++ c :: r) = p :: splitAll c r := by
  induction p with
  | nil => simp [splitAll]
  | cons x xs ih =>
    simp only [List.mem_cons, not_or] at h
    have hx : ¬ x = c := fun hxc => h.1 hxc.symm
    simp only [List.cons_append, splitAll, if_neg hx]
    rw [show xs.append (c :: r) = xs ++ c :: r from rfl, ih h.2]

theorem splitAll_not_mem {c : Char} {l : List Char} (h : c ∉ l) : splitAll c l = [l] := by
  induction l with
  | nil => rfl
  | cons x xs ih =>
    simp only [List.mem_cons, not_or] at h
    have hx : ¬ x = c := fun hxc => h.1 hxc.symm
    simp only [splitAll, if_neg hx, ih h.2]

/-- Keys carry no `&` or `=`, values no `&`: what survives a round trip
through a query string. -/
def GoodPair (kv : String × String) : Prop :=
  '&' ∉ kv.1.toList ∧ '=' ∉ kv.1.toList ∧ '&' ∉ kv.2.toList

instance : DecidablePred GoodPair := fun kv =>
  decidable_of_iff ('&' ∉ kv.1.toList ∧ '=' ∉ kv.1.toList ∧ '&' ∉ kv.2.toList) Iff.rfl

theorem encodePair_ne_nil (kv : String × String) : encodePair kv ≠ [] := by
  simp [encodePair]

theorem amp_not_mem_encodePair {kv : String × String} (h : GoodPair kv) :
    '&' ∉ encodePair kv := by
  simp only [encodePair, List.mem_append, List.mem_cons, not_or]
  refine ⟨h.1, ?_, h.2.2⟩
  decide

theorem parsePair_encodePair {kv : String × String} (h : '=' ∉ kv.1.toList) :
    parsePair (encodePair kv) = kv := by
  simp only [parsePair, encodePair, splitFirst_app h, asString_toList]

theorem encodePair_isEmpty (kv : String × String) : (encodePair kv).isEmpty = false := by
  cases he : encodePair kv with
  | nil => exact absurd he (encodePair_ne_nil kv)
  | cons a l => rfl

theorem splitFirst_snd_none {c : Char} {l : List Char}
    (h : (splitFirst c l).2 = none) : c ∉ l := by
  induction l with
  | nil => simp
  | cons x xs ih =>
    by_cases hx : x = c
    · simp [splitFirst, hx] at h
    · simp only [splitFirst, if_neg hx] at h
      simp only [List.mem_cons, not_or]
      exact ⟨fun hcx => hx hcx.symm, ih h⟩

theorem parseQuery_singleton {kv : String × String} (hg : GoodPair kv) :
    parseQuery (encodePair kv) = [kv] := by
  unfold parseQuery
  rw [splitAll_not_mem (amp_not_mem_encodePair hg), List.filterMap_cons,
    encodePair_isEmpty kv]
  simp [parsePair_encodePair hg.2.1]

theorem parseQuery_cons {kv : String × String} {restChars : List Char}
    (hg : GoodPair kv) :
    parseQuery (encodePair kv ++ '&' :: restChars) = kv :: parseQuery restChars := by
  unfold parseQuery
  rw [splitAll_app (amp_not_mem_encodePair hg), List.filterMap_cons,
    encodePair_isEmpty kv]
  simp [parsePair_encodePair hg.2.1]

theorem parseQuery_encodeQuery {ps : List (String × String)}
    (h : ∀ kv ∈ ps, GoodPair kv) : parseQuery (encodeQuery ps) = ps := by
  induction ps with
  | nil => rfl
  | cons kv rest ih =>
    cases rest with
    | nil => exact parseQuery_singleton (h kv (List.mem_singleton.mpr rfl))
    | cons kv2 rest2 =>
      have hg : GoodPair kv := h kv (List.mem_cons_self _ _)
      have hrest : ∀ p ∈ kv2 :: rest2, GoodPair p :=
        fun p hp => h p (List.mem_cons_of_mem _ hp)
      rw [show encodeQuery (kv :: kv2 :: rest2)
            = encodePair kv ++ '&' :: encodeQuery (kv2 :: rest2) from rfl,
        parseQuery_cons hg, ih hrest]

theorem parseQuery_good {q : List Char} : ∀ kv ∈ parseQuery q, GoodPair kv := by
  intro kv hkv
  simp only [parseQuery, List.mem_filterMap] at hkv
  obtain ⟨piece, hpiece, hparse⟩ := hkv
  by_cases hemp : piece.isEmpty
  · simp [hemp] at hparse
  · rw [if_neg hemp] at hparse
    cases hparse
    have hamp : '&' ∉ piece := not_mem_of_mem_splitAll hpiece
    cases hsnd : (splitFirst '=' piece).2 with
    | none =>
      simp only [GoodPair, parsePair, hsnd]
      refine ⟨?_, ?_, ?_⟩ <;> try simp only [toList_asString]
      · exact hamp
      · exact splitFirst_snd_none hsnd
      · decide
    | some v =>
      simp only [GoodPair, parsePair, hsnd]
      refine ⟨?_, ?_, ?_⟩ <;> try simp only [toList_asString]
      · exact fun hm => hamp (splitFirst_fst_sub '=' piece _ hm)
      · exact splitFirst_fst_not_mem '=' piece
      · exact fun hm => hamp (splitFirst_snd_sub hsnd _ hm)

theorem lookupQ_append {k : String} {l1 l2 : List (String × String)}
    (h : lookupQ k l1 = none) : lookupQ k (l1 ++ l2) = lookupQ k l2 := by
  induction l1 with
  | nil => rfl
  | cons kv rest ih =>
    by_cases hk : kv.1 = k
    · simp [lookupQ, hk] at h
    · simp only [lookupQ, if_neg hk] at h
      simp only [List.cons_append, lookupQ, if_neg hk]
      exact ih h

theorem lookupQ_eq_none {k : String} {l : List (String × String)}
    (h : ∀ kv ∈ l, kv.1 ≠ k) : lookupQ k l = none := by
  induction l with
  | nil => rfl
  | cons kv rest ih =>
    simp only [lookupQ, if_neg (h kv (List.mem_cons_self _ _))]
    exact ih (fun p hp => h p (List.mem_cons_of_mem _ hp))

/-- The central property of the spec-modelled `update_url_query`: a key the
given pairs bind looks up to the bound value in the resulting URL's query
string, whatever query string the URL carried before. -/
theorem update_url_query_lookup (url : String) (q : List (String × String))
    (hgood : ∀ kv ∈ q, GoodPair kv) (hne : q.isEmpty = false) (k v : String)
    (hk : lookupQ k q = some v) :
    urlQueryLookup (update_url_query url q) k = some v := by
  unfold update_url_query
  rw [hne]
  simp only [Bool.false_eq_true, if_false]
  set oldPairs :=
    (match (splitFirst '?' url.toList).2 with
     | some qs => parseQuery qs
     | none => []) with holdPairs
  have holdGood : ∀ kv ∈ oldPairs, GoodPair kv := by
    rw [holdPairs]
    cases (splitFirst '?' url.toList).2 with
    | none => simp
    | some qs =>
      intro kv hkv
      exact parseQuery_good kv hkv
  set filtered := oldPairs.filter (fun kv => (lookupQ kv.1 q).isNone) with hfiltered
  have hmergedGood : ∀ kv ∈ filtered ++ q, GoodPair kv := by
    intro kv hkv
    rcases List.mem_append.mp hkv with hkv | hkv
    · exact holdGood kv (List.mem_of_mem_filter hkv)
    · exact hgood kv hkv
  unfold urlQueryLookup urlQueryString
  rw [toList_asString, splitFirst_app (splitFirst_fst_not_mem '?' url.toList),
    parseQuery_encodeQuery hmergedGood]
  have hfilteredNone : lookupQ k filtered = none := by
    refine lookupQ_eq_none ?_
    intro kv hkv hkvk
    have hmem := List.of_mem_filter hkv
    rw [hkvk, hk] at hmem
    simp at hmem
  rw [lookupQ_append hfilteredNone]
  exact hk

/-! ## Lemmas: sequential effectful map -/

theorem mapME_ok_length {α β : Type} {f : α → Except Err β} {l : List α} {l2 : List β}
    (h : mapME f l = .ok l2) : l2.length = l.length := by
  induction l generalizing l2 with
  | nil =>
    simp only [mapME] at h
    cases h
    rfl
  | cons a as ih =>
    simp only [mapME] at h
    cases hfa : f a with
    | error e => rw [hfa] at h; cases h
    | ok b =>
      rw [hfa] at h
      cases hrec : mapME f as with
      | error e => rw [hrec] at h; cases h
      | ok bs =>
        rw [hrec] at h
        cases h
        simp [ih hrec]

theorem mapME_ok_get {α β : Type} {f : α → Except Err β} {l : List α} {l2 : List β}
    (h : mapME f l = .ok l2) :
    ∀ i (h1 : i < l.length) (h2 : i < l2.length),
      f (l.get ⟨i, h1⟩) = .ok (l2.get ⟨i, h2⟩) := by
  induction l generalizing l2 with
  | nil => intro i h1; exact absurd h1 (by simp)
  | cons a as ih =>
    simp only [mapME] at h
    cases hfa : f a with
    | error e => rw [hfa] at h; cases h
    | ok b =>
      rw [hfa] at h
      cases hrec : mapME f as with
      | error e => rw [hrec] at h; cases h
      | ok bs =>
        rw [hrec] at h
        cases h
        intro i h1 h2
        cases i with
        | zero => exact hfa
        | succ j => exact ih hrec j (Nat.lt_of_succ_lt_succ h1) (Nat.lt_of_succ_lt_succ h2)

theorem mapME_ok_mem {α β : Type} {f : α → Except Err β} {l : List α} {l2 : List β}
    (h : mapME f l = .ok l2) : ∀ b ∈ l2, ∃ a ∈ l, f a = .ok b := by
  induction l generalizing l2 with
  | nil =>
    simp only [mapME] at h
    cases h
    simp
  | cons a as ih =>
    simp only [mapME] at h
    cases hfa : f a with
    | error e => rw [hfa] at h; cases h
    | ok b0 =>
      rw [hfa] at h
      cases hrec : mapME f as with
      | error e => rw [hrec] at h; cases h
      | ok bs =>
        rw [hrec] at h
        cases h
        intro b hb
        rcases List.mem_cons.mp hb with hb | hb
        · exact ⟨a, List.mem_cons_self _ _, hb ▸ hfa⟩
        · obtain ⟨a2, ha2, hfa2⟩ := ih hrec b hb
          exact ⟨a2, List.mem_cons_of_mem _ ha2, hfa2⟩

/-! ## Lemmas: extractor functions -/

theorem takeWhile_all {p : Char → Bool} :
    ∀ l : List Char, ∀ c ∈ l.takeWhile p, p c := by
  intro l
  induction l with
  | nil => simp
  | cons x xs ih =>
    by_cases hx : p x
    · simp only [List.takeWhile, hx, List.mem_cons]
      intro c hc
      rcases hc with hc | hc
      · exact hc ▸ hx
      · exact ih c hc
    · simp [List.takeWhile, hx]

/-- A successfully resolved item carries the caller's display id and, the
`trackerClipId` fallback (wdr.py lines 96-98). -/
theorem resolver_ok_display_id {env : Env} {ju : String} {dispId : Option String}
    {d : InfoDict} (h : extract_wdr_video_from_jsonp_url env ju dispId = .ok d) :
    d.display_id = dispId := by
  unfold extract_wdr_video_from_jsonp_url at h
  repeat' split at h
  all_goals cases h
  all_goals rfl

/-- Field contents of a successfully resolved item, given the manifest the
fetch collaborator returned (wdr.py lines 86-104). -/
theorem resolver_ok_fields {env : Env} {ju : String} {dispId : Option String}
    {mf : Manifest} {td : TrackerData} {mr : MediaResource} {d : InfoDict}
    (hmf : env.fetchManifest ju = .ok mf)
    (htd : mf.trackerData = some td)
    (hmr : mf.mediaResource = some mr)
    (h : extract_wdr_video_from_jsonp_url env ju dispId = .ok d) :
    d.id = (match td.trackerClipId with | some i => some i | none => dispId) ∧
    d.display_id = dispId ∧
    d.alt_title = td.trackerClipSubcategory ∧
    d.upload_date = some (unified_strdate td.trackerClipAirTime) ∧
    d.subtitles = (match mr.captionURL with
                   | some c => if c = "" then [] else [("de", [⟨c, "ttml"⟩])]
                   | none => []) := by
  unfold extract_wdr_video_from_jsonp_url at h
  rw [hmf] at h
  simp only [htd, hmr] at h
  repeat' split at h
  all_goals cases h
  all_goals refine ⟨rfl, rfl, rfl, rfl, ?_⟩
  all_goals simp_all

/-- Post-processing (wdr.py lines 246-259) never touches the `id` or
`display_id` fields. -/
theorem postProcess_id (env : Env) (url_type : Option String) (webpage : String)
    (d : InfoDict) :
    (wdrSinglePostProcess env url_type webpage d).id = d.id ∧
    (wdrSinglePostProcess env url_type webpage d).display_id = d.display_id := by
  unfold wdrSinglePostProcess
  by_cases hl : url_type = some "live" <;>
    by_cases hu : d.upload_date = none <;>
    simp [hl, hu]

/-- The result value of the stateful classifier does not depend on the
incoming collaborator state when the collaborators are deterministic. -/
theorem classifyFormatsM_fst_const {σ : Type} {env : MEnv σ}
    (hdet : env.Deterministic) (url : String) (s s' : σ) :
    (classifyFormatsM env url s).1 = (classifyFormatsM env url s').1 := by
  obtain ⟨h1, h2, h3, h4⟩ := hdet
  unfold classifyFormatsM
  by_cases e1 : determine_ext url = "m3u8"
  · simp only [e1, if_pos rfl]
    rcases ha : env.extractM3u8 url s with ⟨a, s1⟩
    rcases hb : env.extractM3u8 url s' with ⟨b, s2⟩
    have hab : a = b := by
      have := h1 url s s'
      rw [ha, hb] at this
      exact this
    subst hab
    cases a <;> simp
  · simp only [e1, if_neg e1]
    by_cases e2 : determine_ext url = "f4m"
    · simp only [e2, if_pos rfl]
      simp [h2 (f4mFetchUrl url) s s']
    · simp only [if_neg e2]
      by_cases e3 : determine_ext url = "smil"
      · simp only [e3, if_pos rfl]
        simp [h3 url s s']
      · simp only [if_neg e3]
        by_cases e4 : determine_ext url = "unknown_video"
        · simp only [e4, if_pos rfl]
          rcases ha : env.probeExt url s with ⟨a, s1⟩
          rcases hb : env.probeExt url s' with ⟨b, s2⟩
          have hab : a = b := by
            have := h4 url s s'
            rw [ha, hb] at this
            exact this
          subst hab
          cases a <;> simp
        · simp only [if_neg e4]
          simp


/-! ## Concrete environments for witnesses and counterexamples -/

/-- A concrete environment whose expansion collaborators all fail and whose
probe fails: exercises the failure handling of the classifier. -/
def failExpandEnv : Env where
  downloadWebpage := fun _ => .ok "PAGE"
  findMarkers := fun _ => []
  parseMediaLink := fun _ => .error .malformedMetadata
  fetchManifest := fun _ => .error .malformedMetadata
  extractM3u8 := fun _ => none
  extractF4m := fun _ => none
  extractSmil := fun _ => none
  probeExt := fun u => .error (.fetchError u)
  sortFormats := id
  searchMeta := fun _ _ => none
  liveTitle := fun t => t
  findPageAnchors := fun _ => []

/-! ## Claims -/

/-- Claim C5: for every media URL whose inferred extension is f4m, the URL
used for the manifest fetch carries the query parameters hdcore=3.2.0 and
plugin=aasp-3.2.0.77.18, regardless of any pre-existing query string on the
URL; the classifier consults the f4m expansion collaborator at exactly that
URL. -/
theorem C5_f4m_fetch_query (env : Env) (url : String)
    (h : determine_ext url = "f4m") :
    urlQueryLookup (f4mFetchUrl url) "hdcore" = some "3.2.0" ∧
    urlQueryLookup (f4mFetchUrl url) "plugin" = some "aasp-3.2.0.77.18" ∧
    classifyFormats env url = .ok ((env.extractF4m (f4mFetchUrl url)).getD []) := by
  refine ⟨?_, ?_, ?_⟩
  · exact update_url_query_lookup url [("hdcore", "3.2.0"), ("plugin", "aasp-3.2.0.77.18")]
      (by decide) (by decide) "hdcore" "3.2.0" (by decide)
  · exact update_url_query_lookup url [("hdcore", "3.2.0"), ("plugin", "aasp-3.2.0.77.18")]
      (by decide) (by decide) "plugin" "aasp-3.2.0.77.18" (by decide)
  · simp [classifyFormats, f4mFetchUrl, h]

/-- Witness for C5 at a URL that already carries an `hdcore` parameter and
an unrelated parameter. -/
theorem C5_f4m_fetch_query_witness :
    urlQueryLookup (f4mFetchUrl "http://host/v.f4m?hdcore=old&keep=1") "hdcore" = some "3.2.0" ∧
    urlQueryLookup (f4mFetchUrl "http://host/v.f4m?hdcore=old&keep=1") "plugin" = some "aasp-3.2.0.77.18" ∧
    classifyFormats failExpandEnv "http://host/v.f4m?hdcore=old&keep=1" = .ok [] := by
  have h := C5_f4m_fetch_query failExpandEnv "http://host/v.f4m?hdcore=old&keep=1" (by decide)
  exact ⟨h.1, h.2.1, h.2.2⟩

/-- Claim C2 counterexample: classification of a `.m3u8` URL whose
expansion fails does not yield zero candidates — it fails fatally (the call
at wdr.py line 62 passes no `fatal=False`). -/
theorem C2_m3u8_fatal_counterexample :
    classifyFormats failExpandEnv "http://example.com/stream.m3u8" =
      .error (.fetchError "http://example.com/stream.m3u8") := by
  rfl

/-- Claim C2 (amended): an expansion failure of an `.f4m` or `.smil`
manifest is swallowed and yields zero candidates; an expansion failure of a
segmented `.m3u8` manifest is not swallowed — it propagates fatally and
aborts the item. -/
theorem C2_expansion_failure_handling (env : Env) (url : String) :
    (determine_ext url = "f4m" → env.extractF4m (f4mFetchUrl url) = none →
      classifyFormats env url = .ok []) ∧
    (determine_ext url = "smil" → env.extractSmil url = none →
      classifyFormats env url = .ok []) ∧
    (determine_ext url = "m3u8" → env.extractM3u8 url = none →
      classifyFormats env url = .error (.fetchError url)) := by
  refine ⟨?_, ?_, ?_⟩ <;> intro hext hfail <;>
    simp [classifyFormats, hext, hfail]

/-- Witness for the amended C2 at concrete URLs of each kind. -/
theorem C2_expansion_failure_handling_witness :
    classifyFormats failExpandEnv "http://host/a.f4m" = .ok [] ∧
    classifyFormats failExpandEnv "http://host/a.smil" = .ok [] ∧
    classifyFormats failExpandEnv "http://host/a.m3u8" =
      .error (.fetchError "http://host/a.m3u8") := by
  refine ⟨?_, ?_, ?_⟩
  · exact (C2_expansion_failure_handling failExpandEnv "http://host/a.f4m").1 (by decide) rfl
  · exact (C2_expansion_failure_handling failExpandEnv "http://host/a.smil").2.1 (by decide) rfl
  · exact (C2_expansion_failure_handling failExpandEnv "http://host/a.m3u8").2.2 (by decide) rfl

/-- Claim C9: format classification is idempotent — with deterministic
collaborators, classifying the same raw URL a second time (in the
collaborator state the first classification left behind) yields the same
candidate set as the first. -/
theorem C9_classification_idempotent {σ : Type} (env : MEnv σ) (url : String)
    (s : σ) (hdet : env.Deterministic) :
    (classifyFormatsM env url ((classifyFormatsM env url s).2)).1 =
      (classifyFormatsM env url s).1 := by
  exact classifyFormatsM_fst_const hdet url _ s

/-- A deterministic but genuinely stateful collaborator set: every call
bumps a counter, results ignore it. -/
def countingMEnv : MEnv Nat where
  extractM3u8 := fun u s => (some [{ url := u, ext := some "mp4" }], s + 1)
  extractF4m := fun _ s => (none, s + 1)
  extractSmil := fun _ s => (none, s + 1)
  probeExt := fun _ s => (.ok "mp4", s + 1)

/-- Witness for C9 on a concrete stateful deterministic environment. -/
theorem C9_classification_idempotent_witness :
    (classifyFormatsM countingMEnv "http://host/a.m3u8"
        ((classifyFormatsM countingMEnv "http://host/a.m3u8" 0).2)).1 =
      (classifyFormatsM countingMEnv "http://host/a.m3u8" 0).1 := by
  exact C9_classification_idempotent countingMEnv "http://host/a.m3u8" 0
    ⟨fun _ _ _ => rfl, fun _ _ _ => rfl, fun _ _ _ => rfl, fun _ _ _ => rfl⟩

/-! ## Mobile extractor lemmas and claim -/

theorem digitRunThen_digits {c : Char} {l run rest : List Char}
    (h : digitRunThen c l = some (run, rest)) :
    run ≠ [] ∧ ∀ ch ∈ run, ch.isDigit := by
  unfold digitRunThen at h
  repeat' split at h
  all_goals cases h
  refine ⟨by simp, ?_⟩
  intro ch hch
  refine takeWhile_all l ch ?_
  simp_all

theorem digitRunEnd_digits {l run : List Char}
    (h : digitRunEnd l = some run) :
    run ≠ [] ∧ ∀ ch ∈ run, ch.isDigit := by
  unfold digitRunEnd at h
  split at h
  · cases h
  · cases h
    refine ⟨by simp, ?_⟩
    intro ch hch
    refine takeWhile_all l ch ?_
    simp_all

/-- Digit strings come out of the mobile tail matcher. -/
theorem matchMobileTail_digits {l : List Char} {age vid ttl : String}
    (h : matchMobileTail l = some (age, vid, ttl)) :
    age.toList ≠ [] ∧ (∀ c ∈ age.toList, c.isDigit) ∧
    vid.toList ≠ [] ∧ (∀ c ∈ vid.toList, c.isDigit) ∧
    ttl.toList ≠ [] ∧ (∀ c ∈ ttl.toList, c.isDigit) := by
  unfold matchMobileTail at h
  repeat' split at h
  all_goals cases h
  simp only [toList_asString]
  exact ⟨(digitRunThen_digits (by assumption)).1, (digitRunThen_digits (by assumption)).2,
    (digitRunThen_digits (by assumption)).1, (digitRunThen_digits (by assumption)).2,
    (digitRunEnd_digits (by assumption)).1, (digitRunEnd_digits (by assumption)).2⟩

theorem scanMobile_digits : ∀ {l : List Char} {age vid ttl : String},
    scanMobile l = some (age, vid, ttl) →
    age.toList ≠ [] ∧ (∀ c ∈ age.toList, c.isDigit) ∧
    vid.toList ≠ [] ∧ (∀ c ∈ vid.toList, c.isDigit) ∧
    ttl.toList ≠ [] ∧ (∀ c ∈ ttl.toList, c.isDigit) := by
  intro l
  induction l with
  | nil => intro age vid ttl h; cases h
  | cons c cs ih =>
    intro age vid ttl h
    unfold scanMobile at h
    split at h
    · rename_i g hg
      cases h
      exact matchMobileTail_digits hg
    · split at h
      · cases h
      · exact ih h

theorem wdrMobileMatch_digits {url : String} {age vid ttl : String}
    (h : wdrMobileMatch url = some (age, vid, ttl)) :
    age.toList ≠ [] ∧ (∀ c ∈ age.toList, c.isDigit) ∧
    vid.toList ≠ [] ∧ (∀ c ∈ vid.toList, c.isDigit) ∧
    ttl.toList ≠ [] ∧ (∀ c ∈ ttl.toList, c.isDigit) := by
  unfold wdrMobileMatch at h
  repeat' split at h
  all_goals first
    | cases h
    | exact scanMobile_digits h

/-- Claim C8: for every URL matching the mobile-delivery pattern, the
mobile extractor performs no fetch (it is a pure function of the URL) and
returns a descriptor whose id and title are the two numeric capture groups,
whose age_limit is the integer value of the fsk capture group, whose url is
the input URL itself, and which carries a User-Agent "mobile" header; the
three capture groups are nonempty digit strings. -/
theorem C8_mobile_decomposition (url age vid ttl : String)
    (h : wdrMobileMatch url = some (age, vid, ttl)) :
    WDRMobileIE_realExtract url =
      some { id := vid, title := ttl, age_limit := digitsToNat age, url := url,
             http_headers := [("User-Agent", "mobile")] } ∧
    age ≠ "" ∧ (∀ c ∈ age.toList, c.isDigit) ∧
    vid ≠ "" ∧ (∀ c ∈ vid.toList, c.isDigit) ∧
    ttl ≠ "" ∧ (∀ c ∈ ttl.toList, c.isDigit) := by
  have hd := wdrMobileMatch_digits h
  have hne : ∀ s : String, s.toList ≠ [] → s ≠ "" := by
    intro s hs he
    apply hs
    rw [he]
    rfl
  refine ⟨?_, hne age hd.1, hd.2.1, hne vid hd.2.2.1, hd.2.2.2.1,
    hne ttl hd.2.2.2.2.1, hd.2.2.2.2.2⟩
  unfold WDRMobileIE_realExtract
  rw [h]

/-- Witness for C8 on the end-to-end example URL of the spec (also the
source's own test case). -/
theorem C8_mobile_decomposition_witness :
    WDRMobileIE_realExtract
        "http://mobile-ondemand.wdr.de/CMS2010/mdb/ondemand/weltweit/fsk0/42/421735/421735_4283021.mp4" =
      some { id := "421735", title := "4283021", age_limit := 0,
             url := "http://mobile-ondemand.wdr.de/CMS2010/mdb/ondemand/weltweit/fsk0/42/421735/421735_4283021.mp4",
             http_headers := [("User-Agent", "mobile")] } ∧
    ("0" : String) ≠ "" ∧ (∀ c ∈ ("0" : String).toList, c.isDigit) := by
  have h := C8_mobile_decomposition
    "http://mobile-ondemand.wdr.de/CMS2010/mdb/ondemand/weltweit/fsk0/42/421735/421735_4283021.mp4"
    "0" "421735" "4283021" (by rfl)
  refine ⟨?_, h.2.1, h.2.2.1⟩
  rw [h.1]
  rfl

/-! ## Resolver claims: subtitles (C4) and single-item id (C6) -/

/-- Claim C4 (amended): a successfully resolved manifest with a non-empty
`captionURL` yields exactly one "de" subtitle track with url `captionURL`
and extension "ttml"; a manifest without `captionURL`, or with an empty
one, yields an empty subtitle map (wdr.py line 88 tests truthiness, not key
presence). -/
theorem C4_subtitles_from_captionURL (env : Env) (ju : String)
    (dispId : Option String) (mf : Manifest) (td : TrackerData)
    (mr : MediaResource) (d : InfoDict)
    (hmf : env.fetchManifest ju = .ok mf)
    (htd : mf.trackerData = some td)
    (hmr : mf.mediaResource = some mr)
    (hok : extract_wdr_video_from_jsonp_url env ju dispId = .ok d) :
    (∀ c, mr.captionURL = some c → c ≠ "" →
      d.subtitles = [("de", [⟨c, "ttml"⟩])]) ∧
    ((mr.captionURL = none ∨ mr.captionURL = some "") → d.subtitles = []) := by
  have hsub := (resolver_ok_fields hmf htd hmr hok).2.2.2.2
  constructor
  · intro c hc hne
    rw [hsub, hc]
    simp [hne]
  · intro hc
    rcases hc with hc | hc <;> rw [hsub, hc] <;> simp

/-- The `mediaResource` section of the C4 counterexample manifest: the
`captionURL` key is present, bound to the empty string. -/
def c4MR : MediaResource :=
  { entries := [("dflt", [("videoURL", "http://host/v.mp4")])], captionURL := some "" }

def c4Manifest : Manifest :=
  { trackerData := some { trackerClipId := some "mdb-1", trackerClipTitle := some "T" },
    mediaResource := some c4MR }

def c4Env : Env := { failExpandEnv with fetchManifest := fun _ => .ok c4Manifest }

/-- Claim C4 counterexample: a manifest that does carry the `captionURL`
field (value: the empty string) resolves successfully with an empty
subtitle map, not with one "de" track. -/
theorem C4_captionURL_present_empty_subtitles :
    c4Manifest.mediaResource = some c4MR ∧
    c4MR.captionURL = some "" ∧
    extract_wdr_video_from_jsonp_url c4Env "http://host/meta.js" (some "disp") =
      .ok { id := some "mdb-1", display_id := some "disp", title := "T",
            alt_title := none, formats := [{ url := "http://host/v.mp4", ext := none }],
            subtitles := [], upload_date := some none } := by
  exact ⟨rfl, rfl, rfl⟩

/-- A manifest with a non-empty `captionURL`, for the amended-C4 witness. -/
def c4wMR : MediaResource :=
  { entries := [("dflt", [("videoURL", "http://host/v.mp4")])],
    captionURL := some "http://host/caption.xml" }

def c4wManifest : Manifest :=
  { trackerData := some { trackerClipId := some "mdb-1", trackerClipTitle := some "T" },
    mediaResource := some c4wMR }

def c4wEnv : Env := { c4Env with fetchManifest := fun _ => .ok c4wManifest }

def c4wDict : InfoDict :=
  { id := some "mdb-1", display_id := some "disp", title := "T",
    alt_title := none, formats := [{ url := "http://host/v.mp4", ext := none }],
    subtitles := [("de", [{ url := "http://host/caption.xml", ext := "ttml" }])],
    upload_date := some none }

/-- Witness for the amended C4: a manifest with a non-empty `captionURL`
yields the single "de"/"ttml" track. -/
theorem C4_subtitles_from_captionURL_witness :
    extract_wdr_video_from_jsonp_url c4wEnv "http://host/meta.js" (some "disp") =
      .ok c4wDict ∧
    c4wDict.subtitles = [("de", [{ url := "http://host/caption.xml", ext := "ttml" }])] := by
  have h := C4_subtitles_from_captionURL c4wEnv "http://host/meta.js" (some "disp")
    c4wManifest { trackerClipId := some "mdb-1", trackerClipTitle := some "T" } c4wMR
    c4wDict rfl rfl rfl rfl
  exact ⟨rfl, h.1 "http://host/caption.xml" rfl (by decide)⟩

/-- The single-marker environment: one reference marker, whose fragment
points at one manifest. -/
def oneMarkerTD : TrackerData :=
  { trackerClipId := some "mdb-1378846", trackerClipTitle := some "Lokalzeit am Samstag",
    trackerClipSubcategory := some "Lokalzeit", trackerClipAirTime := some "2017-05-20" }

def oneMarkerManifest : Manifest :=
  { trackerData := some oneMarkerTD,
    mediaResource := some { entries := [("dflt", [("videoURL", "http://host/v.mp4")])] } }

def oneMarkerEnv : Env :=
  { failExpandEnv with
      findMarkers := fun _ => ["frag"],
      parseMediaLink := fun _ => .ok { mediaObj := some { url := some "http://host/meta.js" } },
      fetchManifest := fun _ => .ok oneMarkerManifest }

/-- Claim C6: on a page with exactly one reference marker, the result is a
single descriptor whose display_id is the caller-supplied one (the
`display_id` capture group) and whose id is the manifest's `trackerClipId`
when present, else that display id. -/
theorem C6_single_marker_id (env : Env) (url : String) (m : WDRMatch)
    (page : String) (ju : String) (mf : Manifest) (td : TrackerData)
    (mr : MediaResource) (d : InfoDict)
    (hm : wdrValidUrlMatch url = some m)
    (hpage : env.downloadWebpage url = .ok page)
    (hjs : extract_wdr_jsonp_urls env page m.display_id = .ok (some [ju]))
    (hmf : env.fetchManifest ju = .ok mf)
    (htd : mf.trackerData = some td)
    (hmr : mf.mediaResource = some mr)
    (hok : extract_wdr_video_from_jsonp_url env ju m.display_id = .ok d) :
    WDRIE_realExtract env url =
      .ok (.single (wdrSinglePostProcess env m.type_ page d)) ∧
    (wdrSinglePostProcess env m.type_ page d).display_id = m.display_id ∧
    (wdrSinglePostProcess env m.type_ page d).id =
      (match td.trackerClipId with | some i => some i | none => m.display_id) := by
  have hfields := resolver_ok_fields hmf htd hmr hok
  refine ⟨?_, ?_, ?_⟩
  · unfold WDRIE_realExtract
    simp only [hm, hpage, hjs, hok]
    simp
  · rw [(postProcess_id env m.type_ page d).2]
    exact hfields.2.1
  · rw [(postProcess_id env m.type_ page d).1]
    exact hfields.1

/-- Witness for C6 on the lokalzeit example page of the source's tests. -/
theorem C6_single_marker_id_witness :
    WDRIE_realExtract oneMarkerEnv
        "http://www1.wdr.de/mediathek/video/sendungen/lokalzeit/video-lokalzeit-am-samstag-206.html" =
      .ok (.single { id := some "mdb-1378846",
                     display_id := some "lokalzeit/video-lokalzeit-am-samstag-206",
                     title := "Lokalzeit am Samstag", alt_title := some "Lokalzeit",
                     formats := [{ url := "http://host/v.mp4", ext := none }],
                     subtitles := [], upload_date := some (some "20170520"),
                     description := some none, is_live := some false }) := by
  have h := C6_single_marker_id oneMarkerEnv
    "http://www1.wdr.de/mediathek/video/sendungen/lokalzeit/video-lokalzeit-am-samstag-206.html"
    { page_url := some "http://www1.wdr.de", type_ := some "sendungen",
      display_id := some "lokalzeit/video-lokalzeit-am-samstag-206", display_id_maus := none }
    "PAGE" "http://host/meta.js" oneMarkerManifest oneMarkerTD
    { entries := [("dflt", [("videoURL", "http://host/v.mp4")])] }
    { id := some "mdb-1378846", display_id := some "lokalzeit/video-lokalzeit-am-samstag-206",
      title := "Lokalzeit am Samstag", alt_title := some "Lokalzeit",
      formats := [{ url := "http://host/v.mp4", ext := none }],
      subtitles := [], upload_date := some (some "20170520") }
    rfl rfl rfl rfl rfl rfl rfl
  exact h.1

/-- Claim C7: a page with zero reference markers and zero matching anchors
makes extraction fail with the expected "No downloadable streams found"
error. -/
theorem C7_no_content (env : Env) (url : String) (m : WDRMatch) (page : String)
    (hm : wdrValidUrlMatch url = some m)
    (hpage : env.downloadWebpage url = .ok page)
    (hmk : env.findMarkers page = [])
    (ha : env.findPageAnchors page = []) :
    WDRIE_realExtract env url =
      .error (.extractorError "No downloadable streams found" true) := by
  unfold WDRIE_realExtract wdrNoJsonpBranch extract_wdr_jsonp_urls
  simp only [hm, hpage, hmk, ha]
  simp [mapME]

/-- Witness for C7 on an empty page. -/
theorem C7_no_content_witness :
    WDRIE_realExtract failExpandEnv
        "http://www1.wdr.de/mediathek/video/sendungen/aktuelle-stunde/aktuelle-stunde-120.html" =
      .error (.extractorError "No downloadable streams found" true) := by
  exact C7_no_content failExpandEnv
    "http://www1.wdr.de/mediathek/video/sendungen/aktuelle-stunde/aktuelle-stunde-120.html"
    { page_url := some "http://www1.wdr.de", type_ := some "sendungen",
      display_id := some "aktuelle-stunde/aktuelle-stunde-120", display_id_maus := none }
    "PAGE" rfl rfl rfl rfl

/-! ## Multi-marker claims (C3, C10) and the upload-date bug (C1) -/

/-- When the jsonp-url extraction succeeds with a list, that list has one
element per found reference marker, in order. -/
theorem jsonp_urls_length {env : Env} {page : String} {dispId : Option String}
    {urls : List String}
    (h : extract_wdr_jsonp_urls env page dispId = .ok (some urls)) :
    urls.length = (env.findMarkers page).length ∧
    mapME (mediaLinkUrl env) (env.findMarkers page) = .ok urls := by
  unfold extract_wdr_jsonp_urls at h
  by_cases he : (env.findMarkers page).isEmpty
  · rw [if_pos he] at h
    cases h
  · rw [if_neg he] at h
    cases hm2 : mapME (mediaLinkUrl env) (env.findMarkers page) with
    | error e => rw [hm2] at h; cases h
    | ok us =>
      rw [hm2] at h
      cases h
      exact ⟨mapME_ok_length hm2, rfl⟩

/-- Claim C3: on a page with more than one reference marker (hence more
than one extracted jsonp URL), the flat-playlist branch runs: when every
per-item resolution succeeds the result is a playlist with exactly one
entry per marker, in document order; when any resolution fails, that error
aborts the whole extraction with no partial playlist. -/
theorem C3_multi_marker_playlist (env : Env) (url : String) (m : WDRMatch)
    (page : String) (ju1 ju2 : String) (jus : List String)
    (hm : wdrValidUrlMatch url = some m)
    (hpage : env.downloadWebpage url = .ok page)
    (hjs : extract_wdr_jsonp_urls env page m.display_id = .ok (some (ju1 :: ju2 :: jus))) :
    (ju1 :: ju2 :: jus).length = (env.findMarkers page).length ∧
    (∀ ds, mapME (fun ju => extract_wdr_video_from_jsonp_url env ju m.display_id_maus)
        (ju1 :: ju2 :: jus) = .ok ds →
      WDRIE_realExtract env url = .ok (.playlist ds m.display_id_maus) ∧
      ds.length = (env.findMarkers page).length ∧
      (∀ i (h1 : i < (ju1 :: ju2 :: jus).length) (h2 : i < ds.length),
        extract_wdr_video_from_jsonp_url env ((ju1 :: ju2 :: jus).get ⟨i, h1⟩)
          m.display_id_maus = .ok (ds.get ⟨i, h2⟩))) ∧
    (∀ e, mapME (fun ju => extract_wdr_video_from_jsonp_url env ju m.display_id_maus)
        (ju1 :: ju2 :: jus) = .error e →
      WDRIE_realExtract env url = .error e) := by
  have hlen := (jsonp_urls_length hjs).1
  refine ⟨hlen, ?_, ?_⟩
  · intro ds hds
    refine ⟨?_, ?_, ?_⟩
    · unfold WDRIE_realExtract
      simp only [hm, hpage, hjs, hds]
      simp
    · rw [mapME_ok_length hds]
      exact hlen
    · exact mapME_ok_get hds
  · intro e he
    unfold WDRIE_realExtract
    simp only [hm, hpage, hjs, he]
    simp

/-- A two-marker environment whose two fragments point at the same
manifest. -/
def twoMarkerEnv : Env := { oneMarkerEnv with findMarkers := fun _ => ["frag1", "frag2"] }

/-- The resolved entry of the two-marker environment under a `none` display
id (the value of the `display_id_maus` group for desktop URLs). -/
def twoMarkerEntry : InfoDict :=
  { id := some "mdb-1378846", display_id := none,
    title := "Lokalzeit am Samstag", alt_title := some "Lokalzeit",
    formats := [{ url := "http://host/v.mp4", ext := none }],
    subtitles := [], upload_date := some (some "20170520") }

/-- Witness for C3 on a two-marker page reached from a desktop URL. -/
theorem C3_multi_marker_playlist_witness :
    WDRIE_realExtract twoMarkerEnv
        "http://www1.wdr.de/mediathek/video/sendungen/aktuelle-stunde/aktuelle-stunde-120.html" =
      .ok (.playlist [twoMarkerEntry, twoMarkerEntry] none) ∧
    ([twoMarkerEntry, twoMarkerEntry] : List InfoDict).length = 2 := by
  have h := C3_multi_marker_playlist twoMarkerEnv
    "http://www1.wdr.de/mediathek/video/sendungen/aktuelle-stunde/aktuelle-stunde-120.html"
    { page_url := some "http://www1.wdr.de", type_ := some "sendungen",
      display_id := some "aktuelle-stunde/aktuelle-stunde-120", display_id_maus := none }
    "PAGE" "http://host/meta.js" "http://host/meta.js" []
    rfl rfl rfl
  exact ⟨(h.2.1 [twoMarkerEntry, twoMarkerEntry] rfl).1, rfl⟩

/-- Claim C10: a URL matched by the desktop mediathek alternative leaves
the `display_id_maus` group unset; on such a page with more than one
marker, the flat-playlist branch rebinds the display id to that group, so
the playlist id is `None` and every resolved entry's display_id is `None`.
 -/
theorem C10_desktop_multi_none_ids (env : Env) (url : String)
    (pu ty did : String) (page : String) (ju1 ju2 : String) (jus : List String)
    (ds : List InfoDict)
    (hm : matchDesktopWDR url.toList = some (pu, ty, did))
    (hpage : env.downloadWebpage url = .ok page)
    (hjs : extract_wdr_jsonp_urls env page (some did) = .ok (some (ju1 :: ju2 :: jus)))
    (hds : mapME (fun ju => extract_wdr_video_from_jsonp_url env ju none)
        (ju1 :: ju2 :: jus) = .ok ds) :
    wdrValidUrlMatch url =
      some { page_url := some pu, type_ := some ty, display_id := some did,
             display_id_maus := none } ∧
    WDRIE_realExtract env url = .ok (.playlist ds none) ∧
    ∀ d ∈ ds, d.display_id = none := by
  have hvm : wdrValidUrlMatch url =
      some { page_url := some pu, type_ := some ty, display_id := some did,
             display_id_maus := none } := by
    unfold wdrValidUrlMatch
    rw [hm]
  refine ⟨hvm, ?_, ?_⟩
  · unfold WDRIE_realExtract
    simp only [hvm, hpage, hjs, hds]
    simp
  · intro d hd
    obtain ⟨ju, _, hju⟩ := mapME_ok_mem hds d hd
    exact resolver_ok_display_id hju

/-- Witness for C10 on the same two-marker desktop page. -/
theorem C10_desktop_multi_none_ids_witness :
    wdrValidUrlMatch
        "http://www1.wdr.de/mediathek/video/sendungen/aktuelle-stunde/aktuelle-stunde-120.html" =
      some { page_url := some "http://www1.wdr.de", type_ := some "sendungen",
             display_id := some "aktuelle-stunde/aktuelle-stunde-120",
             display_id_maus := none } ∧
    WDRIE_realExtract twoMarkerEnv
        "http://www1.wdr.de/mediathek/video/sendungen/aktuelle-stunde/aktuelle-stunde-120.html" =
      .ok (.playlist [twoMarkerEntry, twoMarkerEntry] none) ∧
    twoMarkerEntry.display_id = none := by
  have h := C10_desktop_multi_none_ids twoMarkerEnv
    "http://www1.wdr.de/mediathek/video/sendungen/aktuelle-stunde/aktuelle-stunde-120.html"
    "http://www1.wdr.de" "sendungen" "aktuelle-stunde/aktuelle-stunde-120"
    "PAGE" "http://host/meta.js" "http://host/meta.js" []
    [twoMarkerEntry, twoMarkerEntry]
    rfl rfl rfl rfl
  exact ⟨h.1, h.2.1, h.2.2 twoMarkerEntry (by simp)⟩

/-- The C1 environment: a non-live-style manifest without
`trackerClipAirTime`, on pages whose DC.Date meta tag is present. -/
def c1TD : TrackerData :=
  { trackerClipId := some "mdb-103364", trackerClipTitle := some "WDR Fernsehen Live" }

def c1Manifest : Manifest :=
  { trackerData := some c1TD,
    mediaResource := some { entries := [("dflt", [("videoURL", "http://host/v.mp4")])] } }

def c1Env : Env :=
  { oneMarkerEnv with
      fetchManifest := fun _ => .ok c1Manifest,
      searchMeta := fun name _ => if name = "DC.Date" then some "2017-05-20" else none }

/-- Claim C1 (code bug): the live half of the claim holds — on a live page
the final descriptor has `upload_date` set to `None` and `is_live` true —
but the non-live fallback half does not: on a non-live page whose manifest
supplied no upload date and whose own DC.Date meta tag carries a date, the
final `upload_date` is still absent.  The fallback at wdr.py line 253 tests
`'upload_date' not in info_dict`, yet line 103 always writes that key
(possibly as None), so the DC.Date scan is dead code. -/
theorem C1_upload_date_fallback_dead :
    (WDRIE_realExtract c1Env "http://www1.wdr.de/mediathek/video/live/index.html" =
      .ok (.single { id := some "mdb-103364", display_id := some "index",
                     title := "WDR Fernsehen Live", alt_title := none,
                     formats := [{ url := "http://host/v.mp4", ext := none }],
                     subtitles := [], upload_date := some none,
                     description := some none, is_live := some true })) ∧
    (WDRIE_realExtract c1Env
        "http://www1.wdr.de/mediathek/video/sendungen/lokalzeit/video-lokalzeit-am-samstag-206.html" =
      .ok (.single { id := some "mdb-103364",
                     display_id := some "lokalzeit/video-lokalzeit-am-samstag-206",
                     title := "WDR Fernsehen Live", alt_title := none,
                     formats := [{ url := "http://host/v.mp4", ext := none }],
                     subtitles := [], upload_date := some none,
                     description := some none, is_live := some false })) ∧
    c1Env.searchMeta "DC.Date" "PAGE" = some "2017-05-20" ∧
    unified_strdate (c1Env.searchMeta "DC.Date" "PAGE") = some "20170520" := by
  exact ⟨rfl, rfl, rfl, rfl⟩

end WDR

